import Mathlib

/-!
Shallow embedding of `src/scripts/traefik-dns.py`, a one-shot reconciliation
script that extracts hostnames from Traefik routing rules and creates missing
CNAME records at a DNS provider.

Pure string/list logic (the regex-based hostname extractor, subdomain
derivation, aggregation/filtering, the reconciliation loop) is translated
directly.  Network I/O is modelled by passing the remote responses in as
explicit values: an `HttpResult` is either a transport error or a response
carrying a status code and a parsed body.
-/

namespace TraefikDns

/-- The configured base domain (`BASE_DOMAIN = "raktara.com"` in the source).
All string-manipulating functions are parametrised by the base domain, since
it is a configuration constant; this abbreviation is the source's value. -/
def BASE_DOMAIN : String := "raktara.com"

/-- The backquote character delimiting hostnames inside Traefik rule
expressions. -/
def backquote : Char := Char.ofNat 96

/-- One attempt of the regular expression `Host\(\x60([^\x60]+)\x60\)` at the
head of a character list: the literal characters `Host(`, a backquote, a
nonempty maximal run of non-backquote characters (the capture), a backquote,
and `)`.  Returns the captured hostname together with the characters that
follow the whole match, or `none` when the expression does not match here.
Because the capture class excludes the backquote, the greedy capture is
exactly the maximal run of non-backquote characters, and backtracking cannot
produce any other match: if the character after the closing backquote is not
`)`, the attempt fails. -/
def tryHostMatch : List Char → Option (String × List Char)
  | 'H' :: 'o' :: 's' :: 't' :: '(' :: c :: rest =>
    if c = backquote then
      let cap := rest.takeWhile (fun d => d != backquote)
      let rest2 := rest.drop cap.length
      if cap.isEmpty then none
      else
        match rest2 with
        | d :: ')' :: rem => if d = backquote then some (String.mk cap, rem) else none
        | _ => none
    else none
  | _ => none

/-- Fuel-indexed scan implementing `re.findall`: try a match at each position,
left to right; on success emit the capture and continue after the matched
text, otherwise advance one character.  The fuel is initialised to the input
length, which bounds the number of scan steps since every step consumes at
least one character. -/
def findAllHostsAux : Nat → List Char → List String
  | 0, _ => []
  | _, [] => []
  | fuel + 1, c :: rest =>
    match tryHostMatch (c :: rest) with
    | some (host, remaining) => host :: findAllHostsAux fuel remaining
    | none => findAllHostsAux fuel rest

/-- The Hostname Extractor:
`re.findall(r"Host\(\x60([^\x60]+)\x60\)", rule)` from
`get_hosts_from_traefik_api` and `get_hosts_from_config_files`. -/
def hostMatches (rule : String) : List String :=
  findAllHostsAux rule.toList.length rule.toList

/-- `true` when no position of the rule admits a match of the host-predicate
expression, i.e. the rule contains no host predicate.  Positions beyond the
input length are covered because a match needs at least one character. -/
def noHostMatchAnywhere (rule : String) : Bool :=
  (List.range (rule.toList.length + 1)).all
    (fun i => (tryHostMatch (rule.toList.drop i)).isNone)

/-- An HTTP interaction outcome: a transport-level failure (a raised
exception in the source) or a response with a status code and parsed body. -/
inductive HttpResult (α : Type) where
  | transportError
  | response (status : Nat) (body : α)

/-- `get_hosts_from_traefik_api`: on transport error or non-200 status return
`[]`; otherwise run the extractor over each router's rule (`router.get("rule",
"")`, hence the `Option.getD ""`) and concatenate. -/
def get_hosts_from_traefik_api (routers : HttpResult (List (Option String))) :
    List String :=
  match routers with
  | .transportError => []
  | .response status rs =>
    if status != 200 then []
    else (rs.map (fun rule => hostMatches (rule.getD ""))).flatten

/-- `get_hosts_from_config_files`: each file either fails to parse / lacks the
routing substructure (`none`, skipped) or yields a list of router rule
strings; every rule is fed through the extractor and all results are
concatenated. -/
def get_hosts_from_config_files (files : List (Option (List String))) :
    List String :=
  (files.map (fun f =>
    match f with
    | none => []
    | some rules => (rules.map hostMatches).flatten)).flatten

/-- Python's substring test `base in host`, used in the domain filter of
`main`: the needle's characters occur contiguously inside the haystack. -/
def containsSubstr (needle hay : String) : Bool :=
  decide (needle.toList <:+: hay.toList)

/-- The Aggregator/Filter of `main`:
`all_hosts = list(set(hosts_from_api + hosts_from_config))` followed by
`[host for host in all_hosts if BASE_DOMAIN in host]`.  The Python `set`
imposes no particular order; `List.dedup` models the duplicate elimination. -/
def aggregate (base : String) (hostsFromApi hostsFromConfig : List String) :
    List String :=
  ((hostsFromApi ++ hostsFromConfig).dedup).filter (fun h => containsSubstr base h)

/-- A DNS record as returned by the provider's listing endpoint; only the
`name` field is consumed. -/
structure DnsRecord where
  name : String
deriving DecidableEq

/-- `get_existing_dns_records`: on transport error or a non-200 status, log
and return `[]`; on success return the `name` field of every record of the
response's `result` array. -/
def get_existing_dns_records (r : HttpResult (List DnsRecord)) : List String :=
  match r with
  | .transportError => []
  | .response status records =>
    if status != 200 then [] else records.map DnsRecord.name

/-- Subdomain derivation from `create_dns_record`:
`hostname[:-len(BASE_DOMAIN)-1]` when `hostname.endswith(BASE_DOMAIN)`, the
unmodified hostname otherwise.  The Python slice keeps the first
`len(hostname) - len(base) - 1` characters and truncates at zero, which `Nat`
subtraction reproduces. -/
def subdomainOf (base hostname : String) : String :=
  if base.toList.isSuffixOf hostname.toList then
    String.mk (hostname.toList.take (hostname.toList.length - (base.toList.length + 1)))
  else hostname

/-- The JSON body of a record-creation request, as built in
`create_dns_record`. -/
structure DnsRecordRequest where
  type : String
  name : String
  content : String
  ttl : Nat
  proxied : Bool
deriving DecidableEq

/-- The request-construction part of `create_dns_record`: derive the
subdomain label; when it is empty, return without sending anything (`none`);
otherwise the POSTed body is
`{type: "CNAME", name: subdomain, content: base, ttl: 1, proxied: true}`. -/
def create_dns_record (base hostname : String) : Option DnsRecordRequest :=
  let subdomain := subdomainOf base hostname
  if subdomain = "" then none
  else some { type := "CNAME", name := subdomain, content := base, ttl := 1, proxied := true }

/-- Classification of the creation POST's outcome in `create_dns_record`:
a 200 status is logged as success, any other status and any transport error
as failure. -/
def createSucceeded (r : HttpResult Unit) : Bool :=
  match r with
  | .transportError => false
  | .response status _ => status == 200

/-- Outcome of one creation attempt, as observed by the logging in
`create_dns_record`. -/
inductive CreateOutcome where
  | created
  | createFailed
deriving DecidableEq

/-- What happens to one hostname in the reconciliation loop of `main`:
skipped because a record with that name already exists, silently filtered
because its subdomain label is empty, or a creation attempt carrying the
request that was sent and the provider's outcome.  `respond` stands for the
provider: it assigns each hostname's POST an outcome. -/
inductive HostEvent where
  | skipped
  | filteredEmptyLabel
  | attempted (req : DnsRecordRequest) (outcome : CreateOutcome)
deriving DecidableEq

/-- Per-hostname step of the loop in `main`: `if host not in existing_records`
then `create_dns_record(host)`, else skip. -/
def processHost (base : String) (existing : List String)
    (respond : String → CreateOutcome) (h : String) : HostEvent :=
  if existing.contains h then .skipped
  else
    match create_dns_record base h with
    | none => .filteredEmptyLabel
    | some req => .attempted req (respond h)

/-- The reconciliation loop of `main` over the desired hostnames, recorded as
one event per hostname.  The loop body never aborts (every exception inside
`create_dns_record` is caught), so every hostname is processed. -/
def runReconcile (base : String) (desired existing : List String)
    (respond : String → CreateOutcome) : List (String × HostEvent) :=
  desired.map (fun h => (h, processHost base existing respond h))

/-- The creation requests actually POSTed during a run. -/
def issuedRequests (base : String) (desired existing : List String)
    (respond : String → CreateOutcome) : List DnsRecordRequest :=
  (runReconcile base desired existing respond).filterMap (fun p =>
    match p.2 with
    | .attempted req _ => some req
    | _ => none)

/-- The hostnames whose creation was attempted (a POST was sent) during a
run. -/
def attemptedHosts (base : String) (desired existing : List String)
    (respond : String → CreateOutcome) : List String :=
  (runReconcile base desired existing respond).filterMap (fun p =>
    match p.2 with
    | .attempted _ _ => some p.1
    | _ => none)

/-- The number of creation attempts logged as failures during a run. -/
def failureCount (base : String) (desired existing : List String)
    (respond : String → CreateOutcome) : Nat :=
  ((runReconcile base desired existing respond).filter (fun p =>
    match p.2 with
    | .attempted _ .createFailed => true
    | _ => false)).length

/-- The provider behaviour of the failure-isolation scenario: creating
`a.x.com` fails, every other creation succeeds. -/
def failOnA : String → CreateOutcome :=
  fun h => if h = "a.x.com" then .createFailed else .created

/-- A provider behaviour under which every creation succeeds. -/
def allSucceed : String → CreateOutcome :=
  fun _ => .created

/-! ## Helper lemmas -/

/-- When no position of the input admits a match, the scan returns `[]`
regardless of the fuel. -/
theorem findAllHostsAux_eq_nil (fuel : Nat) (s : List Char)
    (h : ∀ i, tryHostMatch (s.drop i) = none) :
    findAllHostsAux fuel s = [] := by
  induction fuel generalizing s with
  | zero => cases s <;> rfl
  | succ fuel ih =>
    cases s with
    | nil => rfl
    | cons c rest =>
      have h0 : tryHostMatch (c :: rest) = none := h 0
      simp only [findAllHostsAux, h0]
      exact ih rest (fun i => by simpa using h (i + 1))

/-- A rule with no host predicate anywhere yields the empty extraction. -/
theorem hostMatches_eq_nil_of_no_match (rule : String)
    (h : noHostMatchAnywhere rule = true) : hostMatches rule = [] := by
  apply findAllHostsAux_eq_nil
  intro i
  by_cases hi : i ≤ rule.toList.length
  · have hmem : i ∈ List.range (rule.toList.length + 1) := by
      simp only [List.mem_range]; omega
    have := List.all_eq_true.mp h i hmem
    exact Option.isNone_iff_eq_none.mp this
  · rw [List.drop_eq_nil_of_le (by omega)]
    rfl

/-- Exhaustive description of the hostnames whose derived subdomain label is
empty: the empty hostname, the base domain itself, or the base domain
preceded by exactly one character. -/
theorem subdomainOf_eq_empty_cases (base h : String) (hbase : base.toList ≠ [])
    (he : subdomainOf base h = "") :
    h = "" ∨ h = base ∨
      (h.toList.length = base.toList.length + 1 ∧ h.toList.tail = base.toList) := by
  unfold subdomainOf at he
  split at he
  case isTrue hsuf =>
    have hsuf2 : base.toList <:+ h.toList := by simpa using hsuf
    obtain ⟨t, ht⟩ := hsuf2
    have hdata : h.toList.take (h.toList.length - (base.toList.length + 1)) = [] :=
      congrArg String.data he
    rw [List.take_eq_nil_iff] at hdata
    rcases hdata with hk | hnil
    · rcases t with _ | ⟨c, t2⟩
      · right; left
        exact String.toList_inj.mp (by simpa using ht.symm)
      · have hlen : h.toList.length = t2.length + 1 + base.toList.length := by
          rw [← ht]; simp [List.length_append]; omega
        have ht2 : t2.length = 0 := by omega
        rw [List.length_eq_zero] at ht2
        subst ht2
        right; right
        refine ⟨by omega, ?_⟩
        rw [← ht]
        rfl
    · rw [← ht] at hnil
      exact absurd (List.append_eq_nil.mp hnil).2 hbase
  case isFalse hsuf =>
    exact Or.inl he

/-- The loop issues no request when every desired hostname is either already
present in the existing set or has an empty subdomain label. -/
theorem issuedRequests_eq_nil (base : String) (desired existing : List String)
    (r : String → CreateOutcome)
    (h : ∀ x ∈ desired, existing.contains x = true ∨ create_dns_record base x = none) :
    issuedRequests base desired existing r = [] := by
  induction desired with
  | nil => rfl
  | cons a l ih =>
    have ha := h a (List.mem_cons_self a l)
    have tail := ih (fun x hx => h x (List.mem_cons_of_mem a hx))
    unfold issuedRequests runReconcile at tail ⊢
    simp only [List.map_cons, List.filterMap_cons]
    have hev : processHost base existing r a = HostEvent.skipped ∨
        processHost base existing r a = HostEvent.filteredEmptyLabel := by
      unfold processHost
      by_cases hc2 : existing.contains a = true
      · left; rw [if_pos hc2]
      · rcases ha with hc | hn
        · exact absurd hc hc2
        · right; rw [if_neg hc2, hn]
    rcases hev with hp | hp <;> simp only [hp] <;> exact tail

/-- Closed form of `attemptedHosts`: a POST is sent exactly for the desired
hostnames that are absent from the existing set and have a nonempty subdomain
label — independently of the provider's responses. -/
theorem attemptedHosts_eq (base : String) (desired existing : List String)
    (r : String → CreateOutcome) :
    attemptedHosts base desired existing r =
      desired.filter
        (fun h => !(existing.contains h) && (create_dns_record base h).isSome) := by
  induction desired with
  | nil => rfl
  | cons a l ih =>
    unfold attemptedHosts runReconcile at ih ⊢
    simp only [List.map_cons, List.filterMap_cons, List.filter_cons]
    cases hc : existing.contains a with
    | true =>
      have hev : processHost base existing r a = HostEvent.skipped := by
        unfold processHost; rw [if_pos hc]
      simp only [hev, hc, Bool.not_true, Bool.false_and, if_false, Bool.false_eq_true]
      exact ih
    | false =>
      cases hcr : create_dns_record base a with
      | none =>
        have hev : processHost base existing r a = HostEvent.filteredEmptyLabel := by
          unfold processHost
          rw [if_neg (by simp only [hc]; exact Bool.false_ne_true), hcr]
        simp only [hev, hc, hcr, Bool.not_false, Bool.true_and, Option.isSome_none,
          if_false, Bool.false_eq_true]
        exact ih
      | some req =>
        have hev : processHost base existing r a = HostEvent.attempted req (r a) := by
          unfold processHost
          rw [if_neg (by simp only [hc]; exact Bool.false_ne_true), hcr]
        simp only [hev, hc, hcr, Bool.not_false, Bool.true_and, Option.isSome_some,
          if_true]
        rw [ih]

/-! ## Claims -/

/-- Claim C1 (refuted by the code): the claim says the extractor returns both
names of a single host predicate with multiple comma-separated backquoted
names, and the source's own comment documents that intent; but the regular
expression requires a backquote immediately followed by a closing
parenthesis, so for the rule Host(\x60a.com\x60,\x60b.com\x60) the extraction
is empty, while a single-name predicate works. -/
theorem c1_multi_host_extraction_returns_nothing :
    hostMatches "Host(`a.com`,`b.com`)" = []
    ∧ hostMatches "Host(`a.com`)" = ["a.com"] :=
  ⟨by decide, by decide⟩

/-- Claim C2, counterexample: the hostname ".raktara.com" derives an empty
subdomain label yet is not equal to the base domain, refuting "the label is
the empty string only when the hostname equals the base domain exactly". -/
theorem c2_counterexample :
    subdomainOf BASE_DOMAIN ".raktara.com" = "" ∧ ".raktara.com" ≠ BASE_DOMAIN :=
  ⟨by decide, by decide⟩

/-- Claim C2 (amended): the derived subdomain label is empty only when the
hostname is empty, equals the base domain exactly, or consists of the base
domain preceded by exactly one character; and a record-creation request is
withheld exactly when the label is empty. -/
theorem c2_empty_label_cases (h x : String)
    (he : subdomainOf BASE_DOMAIN h = "") :
    (h = "" ∨ h = BASE_DOMAIN ∨
      (h.toList.length = BASE_DOMAIN.toList.length + 1 ∧
        h.toList.tail = BASE_DOMAIN.toList))
    ∧ (create_dns_record BASE_DOMAIN x = none ↔ subdomainOf BASE_DOMAIN x = "") := by
  refine ⟨subdomainOf_eq_empty_cases _ _ (by decide) he, ?_, ?_⟩
  · intro hn
    by_cases hx : subdomainOf BASE_DOMAIN x = ""
    · exact hx
    · simp [create_dns_record, hx] at hn
  · intro hx
    simp [create_dns_record, hx]

/-- Witness for C2 (amended), at hostname ".raktara.com" and at the base
domain itself. -/
theorem c2_empty_label_cases_witness :
    (".raktara.com" = "" ∨ ".raktara.com" = BASE_DOMAIN ∨
      ((".raktara.com" : String).toList.length = BASE_DOMAIN.toList.length + 1 ∧
        (".raktara.com" : String).toList.tail = BASE_DOMAIN.toList))
    ∧ (create_dns_record BASE_DOMAIN BASE_DOMAIN = none ↔
        subdomainOf BASE_DOMAIN BASE_DOMAIN = "") :=
  c2_empty_label_cases ".raktara.com" BASE_DOMAIN (by decide)

/-- Claim C3: reconciliation is idempotent and convergent.  First, when every
desired hostname is already contained in the existing-record set, zero
creation requests are issued.  Second, when a second run's existing set
contains everything the first run's existing set contained plus every
hostname for which the first run issued a creation request, the second run
issues zero requests (desired hostnames with an empty label never produce a
request in either run). -/
theorem c3_reconcile_idempotent_convergent (base : String)
    (desired existing existing2 : List String) (r1 r2 : String → CreateOutcome) :
    ((∀ x ∈ desired, existing.contains x = true) →
      issuedRequests base desired existing r1 = [])
    ∧ ((∀ x ∈ desired, existing.contains x = true → existing2.contains x = true) →
       (∀ x ∈ desired, existing.contains x = false →
          (create_dns_record base x).isSome = true → existing2.contains x = true) →
       issuedRequests base desired existing2 r2 = []) := by
  constructor
  · intro h1
    exact issuedRequests_eq_nil base desired existing r1 (fun x hx => Or.inl (h1 x hx))
  · intro h2a h2b
    apply issuedRequests_eq_nil
    intro x hx
    cases hc : existing.contains x with
    | true => exact Or.inl (h2a x hx hc)
    | false =>
      cases hcr : (create_dns_record base x).isSome with
      | true => exact Or.inl (h2b x hx hc hcr)
      | false =>
        right
        exact Option.not_isSome_iff_eq_none.mp (by simp [hcr])

/-- Witness for C3: a fully-synced run issues nothing, and a second run whose
existing set holds the record created by a first run from an empty existing
set issues nothing. -/
theorem c3_reconcile_witness :
    issuedRequests BASE_DOMAIN ["a.raktara.com"] ["a.raktara.com"] allSucceed = []
    ∧ issuedRequests BASE_DOMAIN ["a.raktara.com"] ["a.raktara.com"] allSucceed = [] :=
  ⟨(c3_reconcile_idempotent_convergent BASE_DOMAIN ["a.raktara.com"]
      ["a.raktara.com"] ["a.raktara.com"] allSucceed allSucceed).1 (by decide),
   (c3_reconcile_idempotent_convergent BASE_DOMAIN ["a.raktara.com"]
      [] ["a.raktara.com"] allSucceed allSucceed).2 (by decide) (by decide)⟩

/-- Claim C4: the Aggregator/Filter output has no duplicates and contains a
hostname exactly when it appears in at least one input sequence and its
string contains the base domain; on the spec's example inputs it yields
exactly ["a.example.com"]. -/
theorem c4_aggregate_spec (base : String) (a b : List String) (h : String) :
    (aggregate base a b).Nodup
    ∧ (h ∈ aggregate base a b ↔ (h ∈ a ∨ h ∈ b) ∧ containsSubstr base h = true)
    ∧ aggregate "example.com" ["a.example.com"] ["a.example.com", "b.other.com"] =
        ["a.example.com"] := by
  refine ⟨(List.nodup_dedup _).filter _, ?_, by decide⟩
  simp [aggregate, List.mem_filter, List.mem_dedup, List.mem_append]

/-- Claim C5: the extractor returns ["a.example.com"] for a plain host rule,
still extracts a host predicate embedded in a boolean combinator, and returns
[] for any rule containing no host predicate at any position. -/
theorem c5_extractor_examples (rule : String)
    (hnone : noHostMatchAnywhere rule = true) :
    hostMatches "Host(`a.example.com`)" = ["a.example.com"]
    ∧ hostMatches "Host(`a.com`) && Path(`/x`)" = ["a.com"]
    ∧ hostMatches rule = [] :=
  ⟨by decide, by decide, hostMatches_eq_nil_of_no_match rule hnone⟩

/-- Witness for C5, at the host-predicate-free rule "Path(\x60/x\x60)". -/
theorem c5_extractor_witness :
    hostMatches "Host(`a.example.com`)" = ["a.example.com"]
    ∧ hostMatches "Host(`a.com`) && Path(`/x`)" = ["a.com"]
    ∧ hostMatches "Path(`/x`)" = [] :=
  c5_extractor_examples "Path(`/x`)" (by decide)

/-- Claim C6: the DNS State Reader returns the empty collection on a
transport error and on any non-200 status, and on success returns exactly the
name field of each record of the result array. -/
theorem c6_dns_state_reader (status : Nat) (records recs : List DnsRecord)
    (hs : status ≠ 200) :
    get_existing_dns_records HttpResult.transportError = []
    ∧ get_existing_dns_records (HttpResult.response status records) = []
    ∧ get_existing_dns_records (HttpResult.response 200 recs) =
        recs.map DnsRecord.name := by
  refine ⟨rfl, ?_, ?_⟩
  · have hb : (status != 200) = true := by simpa [bne_iff_ne] using hs
    simp [get_existing_dns_records, hb]
  · simp [get_existing_dns_records]

/-- Witness for C6, at status 500 and a one-record result. -/
theorem c6_dns_state_reader_witness :
    get_existing_dns_records HttpResult.transportError = []
    ∧ get_existing_dns_records (HttpResult.response 500 [{ name := "x.raktara.com" }]) = []
    ∧ get_existing_dns_records (HttpResult.response 200 [{ name := "x.raktara.com" }]) =
        List.map DnsRecord.name [{ name := "x.raktara.com" }] :=
  c6_dns_state_reader 500 [{ name := "x.raktara.com" }] [{ name := "x.raktara.com" }]
    (by decide)

/-- Claim C7: per-hostname failure isolation.  The sequence of hostnames
whose creation is attempted does not depend on the provider's outcomes, and
in the spec's scenario (desired {"a.x.com","b.x.com"}, empty existing set,
creation of "a.x.com" failing) "b.x.com" is still attempted and exactly one
failure is logged. -/
theorem c7_failure_isolation (base : String) (desired existing : List String)
    (r1 r2 : String → CreateOutcome) :
    attemptedHosts base desired existing r1 = attemptedHosts base desired existing r2
    ∧ "b.x.com" ∈ attemptedHosts "x.com" ["a.x.com", "b.x.com"] [] failOnA
    ∧ failureCount "x.com" ["a.x.com", "b.x.com"] [] failOnA = 1 := by
  refine ⟨?_, by decide, by decide⟩
  rw [attemptedHosts_eq, attemptedHosts_eq]

/-- Claim C8: every POSTed creation request has exactly the body
{type: "CNAME", name: subdomain label, content: base domain, ttl: 1,
proxied: true}; for "svc.example.com" under base "example.com" the name field
is "svc"; a 200 status is success and anything else (status or transport
error) is failure. -/
theorem c8_request_shape (base h : String) (req : DnsRecordRequest) (n : Nat)
    (hr : create_dns_record base h = some req) :
    req = { type := "CNAME", name := subdomainOf base h, content := base,
            ttl := 1, proxied := true }
    ∧ subdomainOf "example.com" "svc.example.com" = "svc"
    ∧ (createSucceeded (HttpResult.response n ()) = true ↔ n = 200)
    ∧ createSucceeded HttpResult.transportError = false := by
  refine ⟨?_, by decide, ?_, rfl⟩
  · by_cases hsd : subdomainOf base h = ""
    · simp [create_dns_record, hsd] at hr
    · simp [create_dns_record, hsd] at hr
      exact hr.symm
  · simp [createSucceeded]

/-- Witness for C8, at hostname "svc.example.com" and status 200. -/
theorem c8_request_shape_witness :
    ({ type := "CNAME", name := "svc", content := "example.com", ttl := 1,
       proxied := true } : DnsRecordRequest)
      = { type := "CNAME", name := subdomainOf "example.com" "svc.example.com",
          content := "example.com", ttl := 1, proxied := true }
    ∧ subdomainOf "example.com" "svc.example.com" = "svc"
    ∧ (createSucceeded (HttpResult.response 200 ()) = true ↔ 200 = 200)
    ∧ createSucceeded HttpResult.transportError = false :=
  c8_request_shape "example.com" "svc.example.com"
    { type := "CNAME", name := "svc", content := "example.com", ttl := 1,
      proxied := true }
    200 (by decide)

/-- Claim C9 (implicit): a hostname containing the base domain without ending
in it passes the domain filter of main, and its creation request carries the
entire unmodified hostname as the record name. -/
theorem c9_substring_not_suffix (base h : String)
    (hns : base.toList.isSuffixOf h.toList = false) :
    subdomainOf base h = h
    ∧ containsSubstr "example.com" "example.com.evil.net" = true
    ∧ "example.com.evil.net" ∈ aggregate "example.com" ["example.com.evil.net"] []
    ∧ create_dns_record "example.com" "example.com.evil.net" =
        some { type := "CNAME", name := "example.com.evil.net",
               content := "example.com", ttl := 1, proxied := true } := by
  refine ⟨?_, by decide, by decide, by decide⟩
  unfold subdomainOf
  rw [if_neg (by rw [hns]; exact Bool.false_ne_true)]

/-- Witness for C9, at "example.com.evil.net" under base "example.com". -/
theorem c9_substring_not_suffix_witness :
    subdomainOf "example.com" "example.com.evil.net" = "example.com.evil.net"
    ∧ containsSubstr "example.com" "example.com.evil.net" = true
    ∧ "example.com.evil.net" ∈ aggregate "example.com" ["example.com.evil.net"] []
    ∧ create_dns_record "example.com" "example.com.evil.net" =
        some { type := "CNAME", name := "example.com.evil.net",
               content := "example.com", ttl := 1, proxied := true } :=
  c9_substring_not_suffix "example.com" "example.com.evil.net" (by decide)

/-- Claim C10 (implicit): whenever the hostname ends with the base domain the
label is the hostname with its last len(base)+1 characters removed,
regardless of whether the preceding character is a dot: "fooexample.com"
under base "example.com" derives "fo", and ".example.com" derives the empty
label and is silently skipped. -/
theorem c10_unconditional_strip (base h : String)
    (hs : base.toList.isSuffixOf h.toList = true) :
    (subdomainOf base h).toList =
      h.toList.take (h.toList.length - (base.toList.length + 1))
    ∧ subdomainOf "example.com" "fooexample.com" = "fo"
    ∧ subdomainOf "example.com" ".example.com" = ""
    ∧ create_dns_record "example.com" ".example.com" = none := by
  refine ⟨?_, by decide, by decide, by decide⟩
  unfold subdomainOf
  rw [if_pos hs]
  rfl

/-- Witness for C10, at "fooexample.com" under base "example.com". -/
theorem c10_unconditional_strip_witness :
    (subdomainOf "example.com" "fooexample.com").toList =
      ("fooexample.com" : String).toList.take
        (("fooexample.com" : String).toList.length -
          (("example.com" : String).toList.length + 1))
    ∧ subdomainOf "example.com" "fooexample.com" = "fo"
    ∧ subdomainOf "example.com" ".example.com" = ""
    ∧ create_dns_record "example.com" ".example.com" = none :=
  c10_unconditional_strip "example.com" "fooexample.com" (by decide)

end TraefikDns
